import Mathlib

/-!
Verification development for the Smart Dark Theme extension
(`src/content/dom-analyzer.js`, `src/content/content.js`).

The numeric code of `DOMAnalyzer.invertForDarkTheme` works on JS numbers;
we model them as rationals (`ℚ`), with `Math.round x = ⌊x + 1/2⌋` and
`Math.min`/`Math.max` as `min`/`max`.  The WCAG luminance code uses
`Math.pow` with exponent `2.4`; we model it over the reals.  Strings are
Lean `String`s, and the two regular expressions of `DOMAnalyzer.parseRGB`
are modelled by an explicit leftmost-search scanner: both patterns are
deterministic (every repeated class is disjoint from the character that
follows it), so the greedy scanner computes exactly the JS `String.match`
result.
-/

deriving instance DecidableEq for Except

/-! ### Color string parsing (`DOMAnalyzer.parseRGB`) -/

/-- The characters matched by the regex class `\s` (the ASCII part;
the source strings never contain the exotic unicode spaces). -/
def jsWs (c : Char) : Bool :=
  [' ', '\t', '\n', '\r', '\x0b', '\x0c'].contains c

/-- The characters matched by the regex class `[\d.]` (the alpha
component of the `rgba` pattern). -/
def alphaChar (c : Char) : Bool :=
  c.isDigit || c = '.'

/-- Decimal value of a digit string, as computed by `parseInt`. -/
def digitsVal (ds : List Char) : Nat :=
  ds.foldl (fun a c => 10 * a + (c.toNat - 48)) 0

/-- A run of `n` space characters. -/
def spaces (n : Nat) : List Char :=
  List.replicate n ' '

/-- Match a literal prefix, returning the rest of the input. -/
def stripPfx : List Char → List Char → Option (List Char)
  | [], l => some l
  | _ :: _, [] => none
  | p :: ps, c :: cs => if c = p then stripPfx ps cs else none

/-- Greedy `(\d+)`: one or more digits, capturing their `parseInt` value. -/
def parseNum (l : List Char) : Option (Nat × List Char) :=
  let ds := l.takeWhile Char.isDigit
  if ds.isEmpty then none
  else some (digitsVal ds, l.dropWhile Char.isDigit)

/-- The regex fragment `,\s*`: a literal comma, then greedy whitespace. -/
def expectComma : List Char → Option (List Char)
  | ',' :: r => some (r.dropWhile jsWs)
  | _ => none

/-- Attempt of the pattern `rgb\((\d+),\s*(\d+),\s*(\d+)\)` at the start
of the input (`dom-analyzer.js` line 94). -/
def matchRgbAt (l : List Char) : Option (Nat × Nat × Nat) :=
  match stripPfx (['r', 'g', 'b', '(']) l with
  | none => none
  | some r0 =>
    match parseNum r0 with
    | none => none
    | some (n1, r1) =>
      match expectComma r1 with
      | none => none
      | some r2 =>
        match parseNum r2 with
        | none => none
        | some (n2, r3) =>
          match expectComma r3 with
          | none => none
          | some r4 =>
            match parseNum r4 with
            | none => none
            | some (n3, r5) =>
              match r5 with
              | ')' :: _ => some (n1, n2, n3)
              | _ => none

/-- Attempt of the pattern `rgba\((\d+),\s*(\d+),\s*(\d+),\s*[\d.]+\)` at
the start of the input (`dom-analyzer.js` line 100). -/
def matchRgbaAt (l : List Char) : Option (Nat × Nat × Nat) :=
  match stripPfx (['r', 'g', 'b', 'a', '(']) l with
  | none => none
  | some r0 =>
    match parseNum r0 with
    | none => none
    | some (n1, r1) =>
      match expectComma r1 with
      | none => none
      | some r2 =>
        match parseNum r2 with
        | none => none
        | some (n2, r3) =>
          match expectComma r3 with
          | none => none
          | some r4 =>
            match parseNum r4 with
            | none => none
            | some (n3, r5) =>
              match expectComma r5 with
              | none => none
              | some r6 =>
                let a := r6.takeWhile alphaChar
                if a.isEmpty then none
                else
                  match r6.dropWhile alphaChar with
                  | ')' :: _ => some (n1, n2, n3)
                  | _ => none

/-- Unanchored leftmost search, as performed by `String.prototype.match`
on a regex without `^`. -/
def searchWith (m : List Char → Option (Nat × Nat × Nat)) :
    List Char → Option (Nat × Nat × Nat)
  | [] => none
  | c :: t =>
    match m (c :: t) with
    | some v => some v
    | none => searchWith m t

/-- `DOMAnalyzer.parseRGB` (`dom-analyzer.js` lines 93-106): try the `rgb`
pattern anywhere in the string, then the `rgba` pattern, else `null`. -/
def parseRGB (color : String) : Option (Nat × Nat × Nat) :=
  match searchWith matchRgbAt color.data with
  | some v => some v
  | none => searchWith matchRgbaAt color.data

/-! ### The transform function (`DOMAnalyzer.invertForDarkTheme`) -/

/-- The settings snapshot delivered to the content script. -/
structure Settings where
  enabled : Bool
  brightness : ℚ
  contrast : ℚ
  warmth : ℚ
deriving DecidableEq

/-- JS `Math.min` on (non-NaN) numbers. -/
def jsMin (a b : ℚ) : ℚ :=
  if a ≤ b then a else b

/-- JS `Math.max` on (non-NaN) numbers. -/
def jsMax (a b : ℚ) : ℚ :=
  if b ≤ a then a else b

/-- JS `Math.round`: round half towards positive infinity. -/
def jsRound (q : ℚ) : ℤ :=
  (q + 1 / 2).floor

/-- Step 5 of the transform: `Math.max(0, Math.min(255, x))`. -/
def clamp255 (q : ℚ) : ℚ :=
  jsMax 0 (jsMin 255 q)

/-- The numeric pipeline of `DOMAnalyzer.invertForDarkTheme`
(`dom-analyzer.js` lines 180-208): invert, brightness about 128,
contrast about 128, warmth (guarded by `warmth > 0`, with its own
min/max caps), then clamp and round each channel. -/
def invertTriple (r g b : Nat) (s : Settings) : ℤ × ℤ × ℤ :=
  let invR : ℚ := 255 - (r : ℚ)
  let invG : ℚ := 255 - (g : ℚ)
  let invB : ℚ := 255 - (b : ℚ)
  let invR := 128 + (invR - 128) * s.brightness
  let invG := 128 + (invG - 128) * s.brightness
  let invB := 128 + (invB - 128) * s.brightness
  let invR := 128 + (invR - 128) * s.contrast
  let invG := 128 + (invG - 128) * s.contrast
  let invB := 128 + (invB - 128) * s.contrast
  let invR := if 0 < s.warmth then jsMin 255 (invR + s.warmth * 25) else invR
  let invG := if 0 < s.warmth then jsMin 255 (invG + s.warmth * 15) else invG
  let invB := if 0 < s.warmth then jsMax 0 (invB - s.warmth * 40) else invB
  (jsRound (clamp255 invR), jsRound (clamp255 invG), jsRound (clamp255 invB))

/-- The output template literal of `invertForDarkTheme`. -/
def formatRGB (r g b : ℤ) : String :=
  "rgb(" ++ toString r ++ ", " ++ toString g ++ ", " ++ toString b ++ ")"

/-- `DOMAnalyzer.invertForDarkTheme` (`dom-analyzer.js` lines 172-209):
parse the color, or return it unchanged; then run the numeric pipeline
and format the result as an `rgb(...)` string (always without alpha). -/
def invertForDarkTheme (color : String) (s : Settings) : String :=
  match parseRGB color with
  | none => color
  | some (r, g, b) =>
    match invertTriple r g b s with
    | (ir, ig, ib) => formatRGB ir ig ib

/-! ### Luminance and contrast ratio (`DOMAnalyzer.getLuminance`,
`DOMAnalyzer.getContrastRatio`), modelled over the reals because of the
`Math.pow(_, 2.4)` gamma curve. -/

/-- The per-channel sRGB decode of `getLuminance`
(`dom-analyzer.js` lines 72-75). -/
noncomputable def gammaDecode (x : Nat) : ℝ :=
  let xn : ℝ := (x : ℝ) / 255
  if xn ≤ 0.03928 then xn / 12.92 else ((xn + 0.055) / 1.055) ^ (2.4 : ℝ)

/-- `DOMAnalyzer.getLuminance` (`dom-analyzer.js` lines 71-77). -/
noncomputable def getLuminance (r g b : Nat) : ℝ :=
  0.2126 * gammaDecode r + 0.7152 * gammaDecode g + 0.0722 * gammaDecode b

/-- `DOMAnalyzer.getContrastRatio` (`dom-analyzer.js` lines 82-88). -/
noncomputable def getContrastRatio (rgb1 rgb2 : Nat × Nat × Nat) : ℝ :=
  let lum1 := getLuminance rgb1.1 rgb1.2.1 rgb1.2.2
  let lum2 := getLuminance rgb2.1 rgb2.2.1 rgb2.2.2
  let lighter := max lum1 lum2
  let darker := min lum1 lum2
  (lighter + 0.05) / (darker + 0.05)

/-! ### The element model

A DOM element is modelled by the features the engine reads: its tag
name, whether `closest('svg')` finds an ancestor, the computed
`background-image`, the `src`/`data` attributes, the number of style
classes, and its current inline/computed colors.  `readable = false`
models an element for which `window.getComputedStyle` throws (the
per-node failure the spec talks about); both the read in
`isMediaElement` and the read in `transformElement` go through this
flag.  The `cache` field is the element's entry in the
`elementColorMap` WeakMap of `content.js`. -/

/-- The color-relevant computed/inline style of an element. -/
structure ElemStyle where
  color : String
  backgroundColor : String
  borderColor : String
deriving DecidableEq

/-- A `colorData` record stored in `elementColorMap`
(`content.js` lines 129-133). -/
structure ColorData where
  originalColor : String
  originalBg : String
  originalBorder : String
deriving DecidableEq

/-- A DOM element as seen by the engine. -/
structure Elem where
  tagName : String
  inSvg : Bool
  bgImage : String
  srcAttr : Option String
  dataAttr : Option String
  classCount : Nat
  readable : Bool
  style : ElemStyle
  cache : Option ColorData
deriving DecidableEq

/-- The direct media tags of `isMediaElement` (`dom-analyzer.js` line 30). -/
def mediaTagList : List String :=
  ["img", "video", "canvas", "svg", "picture", "iframe"]

/-- `this.textElements` (`dom-analyzer.js` line 15). -/
def textTagList : List String :=
  ["p", "span", "a", "h1", "h2", "h3", "h4", "h5", "h6", "li", "td", "th",
   "label", "button"]

/-- `this.containerElements` (`dom-analyzer.js` line 16). -/
def containerTagList : List String :=
  ["div", "section", "article", "main", "aside", "nav", "header", "footer"]

/-- JS `tagName.toLowerCase()` on ASCII tag names, character-wise
(written out so that it reduces in the kernel; `String.toLower` in core
is defined by well-founded recursion and does not). -/
def jsToLower (s : String) : String :=
  ⟨s.data.map Char.toLower⟩

/-- Substring search on character lists (JS `String.prototype.includes`). -/
def startsWithL : List Char → List Char → Bool
  | [], _ => true
  | _ :: _, [] => false
  | p :: ps, c :: cs => c = p && startsWithL ps cs

/-- Substring search on character lists (JS `String.prototype.includes`). -/
def hasInfix (pat : List Char) : List Char → Bool
  | [] => startsWithL pat []
  | c :: t => startsWithL pat (c :: t) || hasInfix pat t

/-- JS `s.includes(pat)`. -/
def strIncludes (pat s : String) : Bool :=
  hasInfix pat.data s.data

/-- JS `a || b` on nullable strings (empty string is falsy). -/
def jsOrStr (a b : Option String) : Option String :=
  match a with
  | some s => if s = "" then b else some s
  | none => b

/-- The `src`/`data` data-URI test of `isMediaElement`
(`dom-analyzer.js` lines 44-47). -/
def srcDataSet (e : Elem) : Bool :=
  match jsOrStr e.srcAttr e.dataAttr with
  | none => false
  | some s =>
    if s = "" then false
    else strIncludes ("data:image") s || strIncludes ("data:video") s

/-- The `background-image` test of `isMediaElement`
(`dom-analyzer.js` lines 38-41), only reachable when the computed style
is readable. -/
def bgImageSet (e : Elem) : Bool :=
  decide (e.bgImage ≠ "") && decide (e.bgImage ≠ "none")

/-- `DOMAnalyzer.isMediaElement` (`dom-analyzer.js` lines 24-50).  The
`window.getComputedStyle` call on line 38 throws for an unreadable
element; the direct-tag and `closest('svg')` tests come before it. -/
def isMediaElementE (e : Elem) : Except Unit Bool :=
  if mediaTagList.contains (jsToLower e.tagName) then .ok true
  else if e.inSvg then .ok true
  else if e.readable then .ok (bgImageSet e || srcDataSet e)
  else .error ()

/-- `isMediaElement` restricted to elements whose computed style is
readable (where it cannot throw). -/
def isMediaReadable (e : Elem) : Bool :=
  mediaTagList.contains (jsToLower e.tagName) || e.inSvg ||
    (bgImageSet e || srcDataSet e)

/-- `DOMAnalyzer.isTextElement` (`dom-analyzer.js` lines 55-58). -/
def isTextElement (e : Elem) : Bool :=
  textTagList.contains (jsToLower e.tagName)

/-- `DOMAnalyzer.isContainerElement` (`dom-analyzer.js` lines 63-66). -/
def isContainerElement (e : Elem) : Bool :=
  containerTagList.contains (jsToLower e.tagName) || decide (0 < e.classCount)

/-- The classification record built by `analyzeElement`. -/
structure Analysis where
  isMedia : Bool
  isText : Bool
  isContainer : Bool
  shouldInvert : Bool
  shouldPreserve : Bool
deriving DecidableEq

/-- `DOMAnalyzer.analyzeElement` (`dom-analyzer.js` lines 229-252),
without the per-element memoization (the result is a pure function of
the element, so the `elementCache` WeakMap is observationally
transparent).  The `isMedia` probe may throw via `getComputedStyle`. -/
def analyzeElementE (e : Elem) : Except Unit Analysis :=
  match isMediaElementE e with
  | .error u => .error u
  | .ok m =>
    let base : Analysis :=
      ⟨m, isTextElement e, isContainerElement e, false, false⟩
    .ok (if base.isMedia then { base with shouldPreserve := true }
         else if base.isText || !base.isContainer then
           { base with shouldInvert := true }
         else { base with shouldInvert := true })

/-! ### The application pipeline (`content.js`) -/

/-- The fully-transparent sentinel compared against on
`content.js` lines 98, 103, 108, 138, 144, 150. -/
def transparentSentinel : String :=
  "rgba(0, 0, 0, 0)"

/-- JS truthiness plus the sentinel test: `c && c !== 'rgba(0, 0, 0, 0)'`. -/
def colorOk (c : String) : Bool :=
  decide (c ≠ "") && decide (c ≠ transparentSentinel)

/-- `transformElement` (`content.js` lines 122-158).  The whole body is
inside `try { ... } catch`, and the only throwing operation is the
`getComputedStyle` read on line 124, so an unreadable element is
returned unchanged.  Otherwise: capture-or-reuse the `elementColorMap`
entry, then write the three colors, the background write additionally
guarded by `!analyzer.isMediaElement(element)`. -/
def transformElementE (s : Settings) (e : Elem) : Elem :=
  if e.readable then
    let cd : ColorData :=
      match e.cache with
      | some cd => cd
      | none => ⟨e.style.color, e.style.backgroundColor, e.style.borderColor⟩
    let newColor :=
      if colorOk cd.originalColor then invertForDarkTheme cd.originalColor s
      else e.style.color
    let newBg :=
      if colorOk cd.originalBg && !isMediaReadable e then
        invertForDarkTheme cd.originalBg s
      else e.style.backgroundColor
    let newBorder :=
      if colorOk cd.originalBorder then invertForDarkTheme cd.originalBorder s
      else e.style.borderColor
    { e with style := ⟨newColor, newBg, newBorder⟩, cache := some cd }
  else e

/-- The per-element body of `updateThemeWithNewSettings`
(`content.js` lines 92-116): elements without a cache entry are
skipped; otherwise the colors are recomputed from the stored originals
under the new settings, inside a per-element `try`.  The
`isMediaElement` call on line 103 can throw (unreadable computed
style); the text color has already been written at that point, and the
`catch` then skips the background and border writes. -/
def updateElementE (s : Settings) (e : Elem) : Elem :=
  match e.cache with
  | none => e
  | some cd =>
    let newColor :=
      if colorOk cd.originalColor then invertForDarkTheme cd.originalColor s
      else e.style.color
    if colorOk cd.originalBg then
      match isMediaElementE e with
      | .error _ => { e with style := { e.style with color := newColor } }
      | .ok m =>
        let newBg :=
          if !m then invertForDarkTheme cd.originalBg s
          else e.style.backgroundColor
        let newBorder :=
          if colorOk cd.originalBorder then
            invertForDarkTheme cd.originalBorder s
          else e.style.borderColor
        { e with style := ⟨newColor, newBg, newBorder⟩ }
    else
      let newBorder :=
        if colorOk cd.originalBorder then invertForDarkTheme cd.originalBorder s
        else e.style.borderColor
      { e with style := ⟨newColor, e.style.backgroundColor, newBorder⟩ }

/-- The per-node body of the `applyTheme` tree walk
(`content.js` lines 61-75).  `analyzeElement` runs outside any `try`,
so its failure is propagated to the caller. -/
def applyStepE (s : Settings) (e : Elem) : Except Unit Elem :=
  match analyzeElementE e with
  | .error u => .error u
  | .ok a =>
    if a.shouldPreserve then .ok e
    else if a.shouldInvert then .ok (transformElementE s e)
    else .ok e

/-- `applyStepE` with the (unreachable in the source) failure turned
into a skip; used to state what a fully successful pass computes. -/
def applyStepTotal (s : Settings) (e : Elem) : Elem :=
  match analyzeElementE e with
  | .error _ => e
  | .ok a =>
    if a.shouldPreserve then e
    else if a.shouldInvert then transformElementE s e
    else e

/-- The `applyTheme` walk over the document-order node list
(`content.js` lines 51-75): per-node processing, with an uncaught
classification failure aborting the loop and leaving the remaining
nodes untouched. -/
def applyThemePass (s : Settings) : List Elem → List Elem
  | [] => []
  | e :: rest =>
    match applyStepE s e with
    | .error _ => e :: rest
    | .ok e' => e' :: applyThemePass s rest

/-- The shared per-node body of the two mutation-observer branches
(`content.js` lines 184-186, 193-195 and 208-211): classify, then
transform when `shouldInvert && !shouldPreserve`.  The classification
runs outside any `try`. -/
def stepNodeE (s : Settings) (e : Elem) : Except Unit Elem :=
  match analyzeElementE e with
  | .error u => .error u
  | .ok a =>
    if a.shouldInvert && !a.shouldPreserve then .ok (transformElementE s e)
    else .ok e

/-- `stepNodeE` with failures turned into skips. -/
def stepNodeTotal (s : Settings) (e : Elem) : Elem :=
  match analyzeElementE e with
  | .error _ => e
  | .ok a =>
    if a.shouldInvert && !a.shouldPreserve then transformElementE s e
    else e

/-- A batch of style-attribute mutation records processed in delivery
order (`content.js` lines 204-213); an uncaught classification failure
aborts the `forEach` over the remaining records. -/
def mutationPass (s : Settings) : List Elem → List Elem
  | [] => []
  | e :: rest =>
    match stepNodeE s e with
    | .error _ => e :: rest
    | .ok e' => e' :: mutationPass s rest

/-- The `updateThemeWithNewSettings` loop (`content.js` lines 90-116):
every element is visited, each inside its own `try`, so no element can
abort the pass. -/
def updatePass (s : Settings) : List Elem → List Elem
  | [] => []
  | e :: rest => updateElementE s e :: updatePass s rest

/-! ### Inserted subtrees (the `childList` branch of the observer) -/

/-- A DOM subtree delivered by a `childList` mutation record. -/
inductive DOMTree where
  | node : Elem → List DOMTree → DOMTree

mutual

/-- All elements of a subtree, in preorder (root first). -/
def DOMTree.elems : DOMTree → List Elem
  | .node e cs => e :: elemsForest cs

/-- All elements of a forest, in preorder. -/
def elemsForest : List DOMTree → List Elem
  | [] => []
  | t :: ts => t.elems ++ elemsForest ts

end

mutual

/-- Map a per-element function over a subtree. -/
def mapTree (f : Elem → Elem) : DOMTree → DOMTree
  | .node e cs => .node (f e) (mapForest f cs)

/-- Map a per-element function over a forest. -/
def mapForest (f : Elem → Elem) : List DOMTree → List DOMTree
  | [] => []
  | t :: ts => mapTree f t :: mapForest f ts

end

mutual

/-- Map a fallible per-element function over a subtree, failure
aborting the walk. -/
def mapTreeE (f : Elem → Except Unit Elem) : DOMTree → Except Unit DOMTree
  | .node e cs =>
    match f e with
    | .error u => .error u
    | .ok e' =>
      match mapForestE f cs with
      | .error u => .error u
      | .ok cs' => .ok (.node e' cs')

/-- Map a fallible per-element function over a forest. -/
def mapForestE (f : Elem → Except Unit Elem) :
    List DOMTree → Except Unit (List DOMTree)
  | [] => .ok []
  | t :: ts =>
    match mapTreeE f t with
    | .error u => .error u
    | .ok t' =>
      match mapForestE f ts with
      | .error u => .error u
      | .ok ts' => .ok (t' :: ts')

end

/-- The `childList` branch of the mutation observer
(`content.js` lines 180-201) for one added subtree: classify the root;
only when the root's decision is invert, transform the root and then
walk `querySelectorAll('*')` — all descendants — applying the same
per-node step.  When the root is not invert-decided (e.g. media), the
descendants are never visited.  The `processed` set only de-duplicates
node identities, which a tree never repeats, so it is not modelled. -/
def handleInsertedE (s : Settings) : DOMTree → Except Unit DOMTree
  | .node e cs =>
    match analyzeElementE e with
    | .error u => .error u
    | .ok a =>
      if a.shouldInvert && !a.shouldPreserve then
        match mapForestE (stepNodeE s) cs with
        | .error u => .error u
        | .ok cs' => .ok (.node (transformElementE s e) cs')
      else .ok (.node e cs)

/-! ### The color grammar of the specification

The spec describes the accepted inputs as the `rgb(r,g,b)` and
`rgba(r,g,b,a)` syntaxes with whitespace tolerance.  The following
constructors build such color strings explicitly — digit runs for the
components, an `[\d.]`-run for the alpha, and space runs at the
whitespace positions the code actually tolerates (after each comma) —
so that the parsing claims can quantify over the whole family. -/

/-- The character list of `rgb(<d1>,<sp n2><d2>,<sp n3><d3>)`. -/
def rgbBody (d1 d2 d3 : List Char) (n2 n3 : Nat) : List Char :=
  d1 ++ ',' :: (spaces n2 ++ (d2 ++ ',' :: (spaces n3 ++ (d3 ++ [')']))))

/-- The string `rgb(<d1>,<sp n2><d2>,<sp n3><d3>)`. -/
def rgbStr (d1 d2 d3 : List Char) (n2 n3 : Nat) : String :=
  ⟨'r' :: 'g' :: 'b' :: '(' :: rgbBody d1 d2 d3 n2 n3⟩

/-- The character list of
`rgba(<d1>,<sp n2><d2>,<sp n3><d3>,<sp n4><a>)`. -/
def rgbaBody (d1 d2 d3 a : List Char) (n2 n3 n4 : Nat) : List Char :=
  d1 ++ ',' :: (spaces n2 ++ (d2 ++ ',' ::
    (spaces n3 ++ (d3 ++ ',' :: (spaces n4 ++ (a ++ [')']))))))

/-- The string `rgba(<d1>,<sp n2><d2>,<sp n3><d3>,<sp n4><a>)`. -/
def rgbaStr (d1 d2 d3 a : List Char) (n2 n3 n4 : Nat) : String :=
  ⟨'r' :: 'g' :: 'b' :: 'a' :: '(' :: rgbaBody d1 d2 d3 a n2 n3 n4⟩

/-! ### Concrete elements used in scenarios and counterexamples -/

/-- A plain paragraph element: a text tag, no media features,
readable computed style. -/
def textPElem (st : ElemStyle) (cache : Option ColorData) : Elem :=
  ⟨"p", false, "", none, none, 0, true, st, cache⟩

/-- An image element: a direct media tag, readable computed style. -/
def imgMediaElem (st : ElemStyle) : Elem :=
  ⟨"img", false, "", none, none, 0, true, st, none⟩

/-- A paragraph whose computed style cannot be read (the
`getComputedStyle` call throws for it). -/
def unreadablePElem (st : ElemStyle) : Elem :=
  ⟨"p", false, "", none, none, 0, false, st, none⟩

/-- An image whose computed style cannot be read; its classification
still succeeds because the direct-tag test short-circuits. -/
def unreadableImgElem (st : ElemStyle) : Elem :=
  ⟨"img", false, "", none, none, 0, false, st, none⟩

/-! ## Helper lemmas -/

theorem jsRound_eq_floor (q : ℚ) : jsRound q = ⌊q + 1 / 2⌋ := rfl

theorem jsMin_eq_min (a b : ℚ) : jsMin a b = min a b := (min_def a b).symm

theorem jsMax_eq_max (a b : ℚ) : jsMax a b = max a b := by
  unfold jsMax
  split
  next h => exact (max_eq_left h).symm
  next h => exact (max_eq_right (le_of_not_le h)).symm

theorem clamp255_eq (q : ℚ) : clamp255 q = max 0 (min 255 q) := by
  unfold clamp255
  rw [jsMin_eq_min, jsMax_eq_max]

theorem takeWhile_all_append (p : Char → Bool) (xs ys : List Char)
    (hx : ∀ x ∈ xs, p x = true)
    (hy : ∀ c, ys.head? = some c → p c = false) :
    (xs ++ ys).takeWhile p = xs := by
  induction xs with
  | nil =>
    cases ys with
    | nil => rfl
    | cons c t => simp [List.takeWhile_cons, hy c rfl]
  | cons x xs ih =>
    have hpx : p x = true := hx x (List.mem_cons_self x xs)
    simp only [List.cons_append, List.takeWhile_cons, hpx, if_true]
    rw [ih (fun z hz => hx z (List.mem_cons_of_mem x hz))]

theorem dropWhile_all_append (p : Char → Bool) (xs ys : List Char)
    (hx : ∀ x ∈ xs, p x = true)
    (hy : ∀ c, ys.head? = some c → p c = false) :
    (xs ++ ys).dropWhile p = ys := by
  induction xs with
  | nil =>
    cases ys with
    | nil => rfl
    | cons c t => simp [List.dropWhile_cons, hy c rfl]
  | cons x xs ih =>
    have hpx : p x = true := hx x (List.mem_cons_self x xs)
    simp only [List.cons_append, List.dropWhile_cons, hpx, if_true]
    exact ih (fun z hz => hx z (List.mem_cons_of_mem x hz))

theorem stripPfx_append (p l : List Char) : stripPfx p (p ++ l) = some l := by
  induction p with
  | nil => rfl
  | cons c cs ih => simp [stripPfx, ih]

theorem parseNum_append (ds rest : List Char) (hne : ds ≠ [])
    (hd : ∀ c ∈ ds, c.isDigit = true)
    (hr : ∀ c, rest.head? = some c → c.isDigit = false) :
    parseNum (ds ++ rest) = some (digitsVal ds, rest) := by
  unfold parseNum
  rw [takeWhile_all_append Char.isDigit ds rest hd hr,
      dropWhile_all_append Char.isDigit ds rest hd hr]
  cases ds with
  | nil => exact absurd rfl hne
  | cons c t => simp

theorem digit_not_jsWs (c : Char) (h : c.isDigit = true) : jsWs c = false := by
  rcases hw : jsWs c with _ | _
  · rfl
  · exfalso
    simp only [jsWs, List.contains_eq_any_beq, List.any_eq_true] at hw
    rcases hw with ⟨d, hd, hbeq⟩
    rw [beq_iff_eq] at hbeq
    subst hbeq
    fin_cases hd <;> simp_all [Char.isDigit]

theorem dropWhile_spaces (n : Nat) (rest : List Char)
    (hr : ∀ c, rest.head? = some c → jsWs c = false) :
    (spaces n ++ rest).dropWhile jsWs = rest := by
  refine dropWhile_all_append jsWs (spaces n) rest ?_ hr
  intro x hx
  rw [spaces, List.mem_replicate] at hx
  rw [hx.2]
  decide

theorem expectComma_append (n : Nat) (rest : List Char)
    (hr : ∀ c, rest.head? = some c → jsWs c = false) :
    expectComma (',' :: (spaces n ++ rest)) = some rest := by
  simp [expectComma, dropWhile_spaces n rest hr]

theorem headNotOf (p : Char → Bool) (a : Char) (l : List Char)
    (h : p a = false) : ∀ c, (a :: l).head? = some c → p c = false := by
  intro c hc
  rw [List.head?_cons, Option.some.injEq] at hc
  rw [← hc]
  exact h

theorem headNot_of_all (p : Char → Bool) (ds X : List Char) (hne : ds ≠ [])
    (hd : ∀ c ∈ ds, p c = false) :
    ∀ c, (ds ++ X).head? = some c → p c = false := by
  cases ds with
  | nil => exact absurd rfl hne
  | cons d t =>
    exact headNotOf p d (t ++ X) (hd d (List.mem_cons_self d t))

theorem matchRgbAt_rgb (d1 d2 d3 : List Char) (n2 n3 : Nat)
    (h1 : d1 ≠ []) (h2 : d2 ≠ []) (h3 : d3 ≠ [])
    (hd1 : ∀ c ∈ d1, c.isDigit = true) (hd2 : ∀ c ∈ d2, c.isDigit = true)
    (hd3 : ∀ c ∈ d3, c.isDigit = true) :
    matchRgbAt ('r' :: 'g' :: 'b' :: '(' :: rgbBody d1 d2 d3 n2 n3) =
      some (digitsVal d1, digitsVal d2, digitsVal d3) := by
  have e1 : stripPfx (['r', 'g', 'b', '('])
      ('r' :: 'g' :: 'b' :: '(' :: rgbBody d1 d2 d3 n2 n3) =
      some (rgbBody d1 d2 d3 n2 n3) :=
    stripPfx_append (['r', 'g', 'b', '(']) (rgbBody d1 d2 d3 n2 n3)
  have e2 : parseNum (rgbBody d1 d2 d3 n2 n3) =
      some (digitsVal d1,
        ',' :: (spaces n2 ++ (d2 ++ ',' :: (spaces n3 ++ (d3 ++ [')']))))) :=
    parseNum_append d1 _ h1 hd1 (headNotOf Char.isDigit ',' _ (by decide))
  have e3 : expectComma
      (',' :: (spaces n2 ++ (d2 ++ ',' :: (spaces n3 ++ (d3 ++ [')']))))) =
      some (d2 ++ ',' :: (spaces n3 ++ (d3 ++ [')']))) :=
    expectComma_append n2 _
      (headNot_of_all jsWs d2 _ h2
        (fun c hc => digit_not_jsWs c (hd2 c hc)))
  have e4 : parseNum (d2 ++ ',' :: (spaces n3 ++ (d3 ++ [')']))) =
      some (digitsVal d2, ',' :: (spaces n3 ++ (d3 ++ [')']))) :=
    parseNum_append d2 _ h2 hd2 (headNotOf Char.isDigit ',' _ (by decide))
  have e5 : expectComma (',' :: (spaces n3 ++ (d3 ++ [')']))) =
      some (d3 ++ [')']) :=
    expectComma_append n3 _
      (headNot_of_all jsWs d3 _ h3
        (fun c hc => digit_not_jsWs c (hd3 c hc)))
  have e6 : parseNum (d3 ++ [')']) = some (digitsVal d3, [')']) :=
    parseNum_append d3 _ h3 hd3 (headNotOf Char.isDigit ')' _ (by decide))
  simp only [matchRgbAt, e1, e2, e3, e4, e5, e6]

theorem searchWith_cons_of_some
    (m : List Char → Option (Nat × Nat × Nat)) (c : Char) (t : List Char)
    (v : Nat × Nat × Nat) (h : m (c :: t) = some v) :
    searchWith m (c :: t) = some v := by
  simp [searchWith, h]

theorem matchRgbAt_none_of_head (c : Char) (t : List Char) (h : c ≠ 'r') :
    matchRgbAt (c :: t) = none := by
  simp [matchRgbAt, stripPfx, h]

theorem searchWith_rgb_none (l : List Char) (h : ∀ c ∈ l, c ≠ 'r') :
    searchWith matchRgbAt l = none := by
  induction l with
  | nil => rfl
  | cons c t ih =>
    rw [searchWith, matchRgbAt_none_of_head c t (h c (List.mem_cons_self c t))]
    exact ih (fun z hz => h z (List.mem_cons_of_mem c hz))

theorem matchRgbAt_rgba_head (rest : List Char) :
    matchRgbAt ('r' :: 'g' :: 'b' :: 'a' :: rest) = none := by
  simp [matchRgbAt, stripPfx]

theorem parseRGB_rgbStr (d1 d2 d3 : List Char) (n2 n3 : Nat)
    (h1 : d1 ≠ []) (h2 : d2 ≠ []) (h3 : d3 ≠ [])
    (hd1 : ∀ c ∈ d1, c.isDigit = true) (hd2 : ∀ c ∈ d2, c.isDigit = true)
    (hd3 : ∀ c ∈ d3, c.isDigit = true) :
    parseRGB (rgbStr d1 d2 d3 n2 n3) =
      some (digitsVal d1, digitsVal d2, digitsVal d3) := by
  unfold parseRGB
  rw [show (rgbStr d1 d2 d3 n2 n3).data =
        'r' :: 'g' :: 'b' :: '(' :: rgbBody d1 d2 d3 n2 n3 from rfl]
  rw [searchWith_cons_of_some _ _ _ _
    (matchRgbAt_rgb d1 d2 d3 n2 n3 h1 h2 h3 hd1 hd2 hd3)]

theorem alpha_not_jsWs (c : Char) (h : alphaChar c = true) : jsWs c = false := by
  rw [alphaChar, Bool.or_eq_true] at h
  rcases h with h | h
  · exact digit_not_jsWs c h
  · rw [decide_eq_true_eq] at h
    subst h
    decide

theorem matchRgbaAt_rgba (d1 d2 d3 a : List Char) (n2 n3 n4 : Nat)
    (h1 : d1 ≠ []) (h2 : d2 ≠ []) (h3 : d3 ≠ []) (ha : a ≠ [])
    (hd1 : ∀ c ∈ d1, c.isDigit = true) (hd2 : ∀ c ∈ d2, c.isDigit = true)
    (hd3 : ∀ c ∈ d3, c.isDigit = true)
    (hda : ∀ c ∈ a, alphaChar c = true) :
    matchRgbaAt ('r' :: 'g' :: 'b' :: 'a' :: '(' ::
        rgbaBody d1 d2 d3 a n2 n3 n4) =
      some (digitsVal d1, digitsVal d2, digitsVal d3) := by
  have e1 : stripPfx (['r', 'g', 'b', 'a', '('])
      ('r' :: 'g' :: 'b' :: 'a' :: '(' :: rgbaBody d1 d2 d3 a n2 n3 n4) =
      some (rgbaBody d1 d2 d3 a n2 n3 n4) :=
    stripPfx_append (['r', 'g', 'b', 'a', '(']) (rgbaBody d1 d2 d3 a n2 n3 n4)
  have e2 : parseNum (rgbaBody d1 d2 d3 a n2 n3 n4) =
      some (digitsVal d1, ',' :: (spaces n2 ++ (d2 ++ ',' ::
        (spaces n3 ++ (d3 ++ ',' :: (spaces n4 ++ (a ++ [')']))))))) :=
    parseNum_append d1 _ h1 hd1 (headNotOf Char.isDigit ',' _ (by decide))
  have e3 : expectComma (',' :: (spaces n2 ++ (d2 ++ ',' ::
      (spaces n3 ++ (d3 ++ ',' :: (spaces n4 ++ (a ++ [')']))))))) =
      some (d2 ++ ',' :: (spaces n3 ++ (d3 ++ ',' ::
        (spaces n4 ++ (a ++ [')']))))) :=
    expectComma_append n2 _
      (headNot_of_all jsWs d2 _ h2
        (fun c hc => digit_not_jsWs c (hd2 c hc)))
  have e4 : parseNum (d2 ++ ',' :: (spaces n3 ++ (d3 ++ ',' ::
      (spaces n4 ++ (a ++ [')']))))) =
      some (digitsVal d2, ',' :: (spaces n3 ++ (d3 ++ ',' ::
        (spaces n4 ++ (a ++ [')']))))) :=
    parseNum_append d2 _ h2 hd2 (headNotOf Char.isDigit ',' _ (by decide))
  have e5 : expectComma (',' :: (spaces n3 ++ (d3 ++ ',' ::
      (spaces n4 ++ (a ++ [')']))))) =
      some (d3 ++ ',' :: (spaces n4 ++ (a ++ [')']))) :=
    expectComma_append n3 _
      (headNot_of_all jsWs d3 _ h3
        (fun c hc => digit_not_jsWs c (hd3 c hc)))
  have e6 : parseNum (d3 ++ ',' :: (spaces n4 ++ (a ++ [')']))) =
      some (digitsVal d3, ',' :: (spaces n4 ++ (a ++ [')']))) :=
    parseNum_append d3 _ h3 hd3 (headNotOf Char.isDigit ',' _ (by decide))
  have e7 : expectComma (',' :: (spaces n4 ++ (a ++ [')']))) =
      some (a ++ [')']) :=
    expectComma_append n4 _
      (headNot_of_all jsWs a _ ha
        (fun c hc => alpha_not_jsWs c (hda c hc)))
  have e8 : (a ++ [')']).takeWhile alphaChar = a :=
    takeWhile_all_append alphaChar a ([')']) hda
      (headNotOf alphaChar ')' [] (by decide))
  have e9 : (a ++ [')']).dropWhile alphaChar = [')'] :=
    dropWhile_all_append alphaChar a ([')']) hda
      (headNotOf alphaChar ')' [] (by decide))
  have hae : a.isEmpty = false := by
    cases a with
    | nil => exact absurd rfl ha
    | cons c t => rfl
  simp only [matchRgbaAt, e1, e2, e3, e4, e5, e6, e7, e8, e9, hae,
    Bool.false_eq_true, if_false]

theorem no_r_in_rgbaBody (d1 d2 d3 a : List Char) (n2 n3 n4 : Nat)
    (hd1 : ∀ c ∈ d1, c.isDigit = true) (hd2 : ∀ c ∈ d2, c.isDigit = true)
    (hd3 : ∀ c ∈ d3, c.isDigit = true)
    (hda : ∀ c ∈ a, alphaChar c = true) :
    ∀ c ∈ rgbaBody d1 d2 d3 a n2 n3 n4, c ≠ 'r' := by
  intro c hc
  simp only [rgbaBody, List.mem_append, List.mem_cons, spaces,
    List.mem_replicate] at hc
  rcases hc with h | h | ⟨_, h⟩ | h | h | ⟨_, h⟩ | h | h | ⟨_, h⟩ | h | h | h
  · intro hr; subst hr; exact absurd (hd1 _ h) (by decide)
  · subst h; decide
  · subst h; decide
  · intro hr; subst hr; exact absurd (hd2 _ h) (by decide)
  · subst h; decide
  · subst h; decide
  · intro hr; subst hr; exact absurd (hd3 _ h) (by decide)
  · subst h; decide
  · subst h; decide
  · intro hr; subst hr; exact absurd (hda _ h) (by decide)
  · subst h; decide
  · exact absurd h (List.not_mem_nil c)

theorem parseRGB_rgbaStr (d1 d2 d3 a : List Char) (n2 n3 n4 : Nat)
    (h1 : d1 ≠ []) (h2 : d2 ≠ []) (h3 : d3 ≠ []) (ha : a ≠ [])
    (hd1 : ∀ c ∈ d1, c.isDigit = true) (hd2 : ∀ c ∈ d2, c.isDigit = true)
    (hd3 : ∀ c ∈ d3, c.isDigit = true)
    (hda : ∀ c ∈ a, alphaChar c = true) :
    parseRGB (rgbaStr d1 d2 d3 a n2 n3 n4) =
      some (digitsVal d1, digitsVal d2, digitsVal d3) := by
  have hsearch1 : searchWith matchRgbAt
      ('r' :: 'g' :: 'b' :: 'a' :: '(' :: rgbaBody d1 d2 d3 a n2 n3 n4) =
      none := by
    rw [searchWith, matchRgbAt_rgba_head]
    refine searchWith_rgb_none _ ?_
    intro c hc
    simp only [List.mem_cons] at hc
    rcases hc with rfl | rfl | rfl | rfl | hc
    · decide
    · decide
    · decide
    · decide
    · exact no_r_in_rgbaBody d1 d2 d3 a n2 n3 n4 hd1 hd2 hd3 hda c hc
  have hsearch2 : searchWith matchRgbaAt
      ('r' :: 'g' :: 'b' :: 'a' :: '(' :: rgbaBody d1 d2 d3 a n2 n3 n4) =
      some (digitsVal d1, digitsVal d2, digitsVal d3) :=
    searchWith_cons_of_some _ _ _ _
      (matchRgbaAt_rgba d1 d2 d3 a n2 n3 n4 h1 h2 h3 ha hd1 hd2 hd3 hda)
  unfold parseRGB
  rw [show (rgbaStr d1 d2 d3 a n2 n3 n4).data =
        'r' :: 'g' :: 'b' :: 'a' :: '(' :: rgbaBody d1 d2 d3 a n2 n3 n4
      from rfl]
  rw [hsearch1, hsearch2]

theorem jsRound_clamp255_bounds (q : ℚ) :
    0 ≤ jsRound (clamp255 q) ∧ jsRound (clamp255 q) ≤ 255 := by
  have h0 : (0 : ℚ) ≤ clamp255 q := by
    rw [clamp255_eq]
    exact le_max_left 0 (min 255 q)
  have h255 : clamp255 q ≤ 255 := by
    rw [clamp255_eq]
    exact max_le (by norm_num) (min_le_left 255 q)
  constructor
  · rw [jsRound_eq_floor]
    refine Int.le_floor.mpr ?_
    push_cast
    linarith
  · rw [jsRound_eq_floor]
    have hlt : ⌊clamp255 q + 1 / 2⌋ < 256 := by
      refine Int.floor_lt.mpr ?_
      push_cast
      linarith
    omega

theorem invertForDarkTheme_parsed (c : String) (r g b : Nat) (s : Settings)
    (h : parseRGB c = some (r, g, b)) :
    invertForDarkTheme c s =
      formatRGB (invertTriple r g b s).1 (invertTriple r g b s).2.1
        (invertTriple r g b s).2.2 := by
  unfold invertForDarkTheme
  rw [h]

theorem invert_black_default :
    invertForDarkTheme ("rgb(0, 0, 0)") ⟨true, 1, 1, 0⟩ =
      "rgb(255, 255, 255)" := by
  have hp : parseRGB ("rgb(0, 0, 0)") = some (0, 0, 0) := by decide
  have ht : invertTriple 0 0 0 ⟨true, 1, 1, 0⟩ = (255, 255, 255) := by
    unfold invertTriple
    norm_num [jsRound_eq_floor, clamp255_eq, jsMin_eq_min, jsMax_eq_max]
  rw [invertForDarkTheme_parsed _ _ _ _ _ hp, ht]
  decide

theorem invert_sentinel_default :
    invertForDarkTheme transparentSentinel ⟨true, 1, 1, 0⟩ =
      "rgb(255, 255, 255)" := by
  have hp : parseRGB transparentSentinel = some (0, 0, 0) := by decide
  have ht : invertTriple 0 0 0 ⟨true, 1, 1, 0⟩ = (255, 255, 255) := by
    unfold invertTriple
    norm_num [jsRound_eq_floor, clamp255_eq, jsMin_eq_min, jsMax_eq_max]
  rw [invertForDarkTheme_parsed _ _ _ _ _ hp, ht]
  decide

theorem colorOk_true (c : String) (h1 : c ≠ "") (h2 : c ≠ transparentSentinel) :
    colorOk c = true := by
  simp [colorOk, h1, h2]

theorem colorOk_sentinel : colorOk transparentSentinel = false := by
  simp [colorOk]

theorem parseRGB_ne_empty (c : String) (t : Nat × Nat × Nat)
    (h : parseRGB c = some t) : c ≠ "" := by
  intro he
  subst he
  exact Option.noConfusion h

theorem analyze_flags (e : Elem) (a : Analysis)
    (h : analyzeElementE e = .ok a) :
    a.shouldPreserve = a.isMedia ∧ a.shouldInvert = !a.isMedia ∧
      isMediaElementE e = .ok a.isMedia := by
  rcases hme : isMediaElementE e with u | m
  · rw [analyzeElementE, hme] at h
    exact absurd h (by simp)
  · rw [analyzeElementE, hme] at h
    simp only [Except.ok.injEq] at h
    rw [ite_self] at h
    subst h
    cases m <;> simp_all

theorem transformElementE_fresh (s : Settings) (e : Elem)
    (h : e.readable = true) (hc : e.cache = none) :
    transformElementE s e =
      { e with
          style :=
            ⟨if colorOk e.style.color then
                invertForDarkTheme e.style.color s
              else e.style.color,
              if colorOk e.style.backgroundColor && !isMediaReadable e then
                invertForDarkTheme e.style.backgroundColor s
              else e.style.backgroundColor,
              if colorOk e.style.borderColor then
                invertForDarkTheme e.style.borderColor s
              else e.style.borderColor⟩,
          cache := some ⟨e.style.color, e.style.backgroundColor,
            e.style.borderColor⟩ } := by
  rw [transformElementE, h, hc]
  simp

theorem transformElementE_cached (s : Settings) (e : Elem) (cd : ColorData)
    (h : e.readable = true) (hc : e.cache = some cd) :
    transformElementE s e =
      { e with
          style :=
            ⟨if colorOk cd.originalColor then
                invertForDarkTheme cd.originalColor s
              else e.style.color,
              if colorOk cd.originalBg && !isMediaReadable e then
                invertForDarkTheme cd.originalBg s
              else e.style.backgroundColor,
              if colorOk cd.originalBorder then
                invertForDarkTheme cd.originalBorder s
              else e.style.borderColor⟩,
          cache := some cd } := by
  rw [transformElementE, h, hc]
  simp

theorem updateElementE_color (s : Settings) (e : Elem) (cd : ColorData)
    (hc : e.cache = some cd) :
    (updateElementE s e).style.color =
      (if colorOk cd.originalColor then invertForDarkTheme cd.originalColor s
       else e.style.color) := by
  rw [updateElementE, hc]
  simp only
  split
  · split <;> rfl
  · rfl

theorem gammaDecode_nonneg (x : Nat) : 0 ≤ gammaDecode x := by
  unfold gammaDecode
  dsimp only
  split
  · positivity
  · refine Real.rpow_nonneg ?_ _
    positivity

theorem getLuminance_nonneg (r g b : Nat) : 0 ≤ getLuminance r g b := by
  unfold getLuminance
  have h1 := gammaDecode_nonneg r
  have h2 := gammaDecode_nonneg g
  have h3 := gammaDecode_nonneg b
  nlinarith

/-! ## Claim theorems -/

/-- Claim C3: the transform pipeline applies invert, then brightness
about 128, then contrast about 128, then warmth (only when positive),
then clamps and rounds — witnessed on the spec's two concrete
scenarios: `rgb(10,10,10)` with brightness 1, contrast 1, warmth 0
inverts to `rgb(245, 245, 245)`, and `rgb(255,255,255)` with warmth 1
comes out as `rgb(25, 15, 0)` after the warmth shift and clamp. -/
theorem c3_transform_scenarios :
    invertForDarkTheme ("rgb(10,10,10)") ⟨true, 1, 1, 0⟩ =
        "rgb(245, 245, 245)" ∧
      invertForDarkTheme ("rgb(255,255,255)") ⟨true, 1, 1, 1⟩ =
        "rgb(25, 15, 0)" := by
  have hp1 : parseRGB ("rgb(10,10,10)") = some (10, 10, 10) := by decide
  have hp2 : parseRGB ("rgb(255,255,255)") = some (255, 255, 255) := by decide
  have ht1 : invertTriple 10 10 10 ⟨true, 1, 1, 0⟩ = (245, 245, 245) := by
    unfold invertTriple
    norm_num [jsRound_eq_floor, clamp255_eq, jsMin_eq_min, jsMax_eq_max]
  have ht2 : invertTriple 255 255 255 ⟨true, 1, 1, 1⟩ = (25, 15, 0) := by
    unfold invertTriple
    norm_num [jsRound_eq_floor, clamp255_eq, jsMin_eq_min, jsMax_eq_max]
  constructor
  · rw [invertForDarkTheme_parsed _ _ _ _ _ hp1, ht1]
    decide
  · rw [invertForDarkTheme_parsed _ _ _ _ _ hp2, ht2]
    decide

/-- Claim C4: for every parsed channel triple and every rational
brightness, contrast and warmth — including values outside the
documented ranges — each output channel of the transform is an integer
in [0, 255]: the final clamp `Math.max(0, Math.min(255, _))` followed
by `Math.round` guarantees it unconditionally. -/
theorem c4_output_clamped (r g b : Nat) (s : Settings) :
    (0 ≤ (invertTriple r g b s).1 ∧ (invertTriple r g b s).1 ≤ 255) ∧
      (0 ≤ (invertTriple r g b s).2.1 ∧ (invertTriple r g b s).2.1 ≤ 255) ∧
      (0 ≤ (invertTriple r g b s).2.2 ∧ (invertTriple r g b s).2.2 ≤ 255) := by
  unfold invertTriple
  exact ⟨jsRound_clamp255_bounds _, jsRound_clamp255_bounds _,
    jsRound_clamp255_bounds _⟩

/-- Claim C9: `getContrastRatio` is symmetric in its two arguments
(it only uses the max and min of the two luminances), and the ratio of
a color with itself is exactly 1 in the real model (the luminances are
nonnegative, so the shared numerator and denominator are nonzero). -/
theorem c9_contrast_ratio :
    (∀ a b : Nat × Nat × Nat, getContrastRatio a b = getContrastRatio b a) ∧
      (∀ a : Nat × Nat × Nat, getContrastRatio a a = 1) := by
  constructor
  · intro a b
    unfold getContrastRatio
    dsimp only
    rw [max_comm, min_comm]
  · intro a
    unfold getContrastRatio
    dsimp only
    rw [max_self, min_self]
    refine div_self ?_
    have h := getLuminance_nonneg a.1 a.2.1 a.2.2
    positivity

/-- Claim C6, corrected: `parseRGB` accepts the `rgb(r,g,b)` and
`rgba(r,g,b,a)` syntaxes and rejects named colors, hex and `hsl()`,
but whitespace is tolerated only immediately after the commas
(the regexes read `,\s*` and allow no whitespace after the opening
parenthesis, before a comma, or before the closing parenthesis). -/
theorem c6_parse_amended (d1 d2 d3 a : List Char) (n2 n3 n4 : Nat)
    (h1 : d1 ≠ []) (h2 : d2 ≠ []) (h3 : d3 ≠ []) (ha : a ≠ [])
    (hd1 : ∀ c ∈ d1, c.isDigit = true) (hd2 : ∀ c ∈ d2, c.isDigit = true)
    (hd3 : ∀ c ∈ d3, c.isDigit = true)
    (hda : ∀ c ∈ a, alphaChar c = true) :
    parseRGB (rgbStr d1 d2 d3 n2 n3) =
        some (digitsVal d1, digitsVal d2, digitsVal d3) ∧
      parseRGB (rgbaStr d1 d2 d3 a n2 n3 n4) =
        some (digitsVal d1, digitsVal d2, digitsVal d3) ∧
      parseRGB ("red") = none ∧
      parseRGB ("#ff0000") = none ∧
      parseRGB ("hsl(120, 50%, 50%)") = none ∧
      parseRGB ("rgb( 10, 20, 30)") = none :=
  ⟨parseRGB_rgbStr d1 d2 d3 n2 n3 h1 h2 h3 hd1 hd2 hd3,
   parseRGB_rgbaStr d1 d2 d3 a n2 n3 n4 h1 h2 h3 ha hd1 hd2 hd3 hda,
   by decide, by decide, by decide, by decide⟩

/-- Witness for C6: the amended theorem evaluated at concrete digit
runs with one space after each comma. -/
theorem c6_parse_amended_witness :
    parseRGB (rgbStr (['1', '0']) (['2', '0']) (['3', '0']) 1 1) =
        some (10, 20, 30) ∧
      parseRGB (rgbaStr (['1', '0']) (['2', '0']) (['3', '0'])
          (['0', '.', '5']) 1 1 1) = some (10, 20, 30) := by
  have h := c6_parse_amended (['1', '0']) (['2', '0']) (['3', '0'])
    (['0', '.', '5']) 1 1 1 (by decide) (by decide) (by decide) (by decide)
    (by decide) (by decide) (by decide) (by decide)
  exact ⟨h.1, h.2.1⟩

/-- Counterexample to C6 as stated: a space after the opening
parenthesis is inside the claimed "arbitrary whitespace around the
components", yet the parser returns null for it, while the same color
without that space parses. -/
theorem c6_parse_counterexample :
    parseRGB ("rgb( 10, 20, 30)") = none ∧
      parseRGB ("rgb(10, 20, 30)") = some (10, 20, 30) := by
  constructor
  · decide
  · decide

/-- Claim C10: `parseRGB` discards the alpha component — two `rgba`
strings differing only in alpha parse to the same triple — and
`invertForDarkTheme` formats its result with the alpha-free `rgb(...)`
template, so the outputs coincide and are opaque. -/
theorem c10_alpha_discarded (d1 d2 d3 a1 a2 : List Char) (n2 n3 n4 : Nat)
    (s : Settings)
    (h1 : d1 ≠ []) (h2 : d2 ≠ []) (h3 : d3 ≠ [])
    (ha1 : a1 ≠ []) (ha2 : a2 ≠ [])
    (hd1 : ∀ c ∈ d1, c.isDigit = true) (hd2 : ∀ c ∈ d2, c.isDigit = true)
    (hd3 : ∀ c ∈ d3, c.isDigit = true)
    (hda1 : ∀ c ∈ a1, alphaChar c = true)
    (hda2 : ∀ c ∈ a2, alphaChar c = true) :
    parseRGB (rgbaStr d1 d2 d3 a1 n2 n3 n4) =
        some (digitsVal d1, digitsVal d2, digitsVal d3) ∧
      parseRGB (rgbaStr d1 d2 d3 a1 n2 n3 n4) =
        parseRGB (rgbaStr d1 d2 d3 a2 n2 n3 n4) ∧
      invertForDarkTheme (rgbaStr d1 d2 d3 a1 n2 n3 n4) s =
        invertForDarkTheme (rgbaStr d1 d2 d3 a2 n2 n3 n4) s ∧
      invertForDarkTheme (rgbaStr d1 d2 d3 a1 n2 n3 n4) s =
        formatRGB
          (invertTriple (digitsVal d1) (digitsVal d2) (digitsVal d3) s).1
          (invertTriple (digitsVal d1) (digitsVal d2) (digitsVal d3) s).2.1
          (invertTriple (digitsVal d1) (digitsVal d2) (digitsVal d3) s).2.2 := by
  have p1 := parseRGB_rgbaStr d1 d2 d3 a1 n2 n3 n4 h1 h2 h3 ha1 hd1 hd2 hd3 hda1
  have p2 := parseRGB_rgbaStr d1 d2 d3 a2 n2 n3 n4 h1 h2 h3 ha2 hd1 hd2 hd3 hda2
  have i1 := invertForDarkTheme_parsed _ _ _ _ s p1
  have i2 := invertForDarkTheme_parsed _ _ _ _ s p2
  exact ⟨p1, p1.trans p2.symm, i1.trans i2.symm, i1⟩

/-- Witness for C10: alphas `0.5` and `9` produce the same parse and
the same opaque output. -/
theorem c10_alpha_discarded_witness :
    parseRGB (rgbaStr (['1']) (['2']) (['3']) (['0', '.', '5']) 0 0 0) =
        some (1, 2, 3) ∧
      invertForDarkTheme (rgbaStr (['1']) (['2']) (['3'])
          (['0', '.', '5']) 0 0 0) ⟨true, 1, 1, 0⟩ =
        invertForDarkTheme (rgbaStr (['1']) (['2']) (['3']) (['9']) 0 0 0)
          ⟨true, 1, 1, 0⟩ := by
  have h := c10_alpha_discarded (['1']) (['2']) (['3']) (['0', '.', '5'])
    (['9']) 0 0 0 ⟨true, 1, 1, 0⟩ (by decide) (by decide) (by decide)
    (by decide) (by decide) (by decide) (by decide) (by decide) (by decide)
    (by decide)
  exact ⟨h.1, h.2.2.1⟩

/-- Claim C1, corrected: for an original color that the grammar parses
and that is not the transparent sentinel `rgba(0, 0, 0, 0)`, applying
the pipeline with settings S1 and then re-applying with S2 — either
through `updateThemeWithNewSettings` or through the cache-reuse branch
of `transformElement` — recomputes from the cached original, yielding
exactly `invertForDarkTheme(C, S2)` and not a double application.  The
sentinel itself is parseable but skipped, which is the one exclusion
the code forces on the claim. -/
theorem c1_resettings_amended (s1 s2 : Settings) (e : Elem)
    (t : Nat × Nat × Nat)
    (hr : e.readable = true) (hc : e.cache = none)
    (hp : parseRGB e.style.color = some t)
    (hs : e.style.color ≠ transparentSentinel) :
    (updateElementE s2 (transformElementE s1 e)).style.color =
        invertForDarkTheme e.style.color s2 ∧
      (transformElementE s2 (transformElementE s1 e)).style.color =
        invertForDarkTheme e.style.color s2 := by
  have hco : colorOk e.style.color = true :=
    colorOk_true _ (parseRGB_ne_empty _ _ hp) hs
  have h1 := transformElementE_fresh s1 e hr hc
  have hcache1 : (transformElementE s1 e).cache =
      some ⟨e.style.color, e.style.backgroundColor, e.style.borderColor⟩ := by
    rw [h1]
  have hread1 : (transformElementE s1 e).readable = true := by
    rw [h1]
    exact hr
  constructor
  · rw [updateElementE_color s2 _ _ hcache1]
    dsimp only
    rw [if_pos hco]
  · rw [transformElementE_cached s2 _ _ hread1 hcache1]
    dsimp only
    rw [if_pos hco]

/-- Witness for C1: a paragraph with text color `rgb(10,10,10)`, first
transformed with warmth 0 and then re-applied with warmth 1. -/
theorem c1_resettings_witness :
    (updateElementE ⟨true, 1, 1, 1⟩ (transformElementE ⟨true, 1, 1, 0⟩
        (textPElem ⟨"rgb(10,10,10)", "", ""⟩ none))).style.color =
      invertForDarkTheme ("rgb(10,10,10)") ⟨true, 1, 1, 1⟩ :=
  (c1_resettings_amended ⟨true, 1, 1, 0⟩ ⟨true, 1, 1, 1⟩
    (textPElem ⟨"rgb(10,10,10)", "", ""⟩ none) (10, 10, 10) rfl rfl
    (by decide) (by decide)).1

/-- Counterexample to C1 as stated: the sentinel `rgba(0, 0, 0, 0)` is
parseable by the color grammar, yet after applying and re-applying the
pipeline the element's color is still the sentinel, not
`invertForDarkTheme` of it. -/
theorem c1_resettings_counterexample :
    parseRGB transparentSentinel = some (0, 0, 0) ∧
      (updateElementE ⟨true, 1, 1, 0⟩ (transformElementE ⟨true, 1, 1, 0⟩
          (textPElem ⟨transparentSentinel, transparentSentinel, ""⟩
            none))).style.color ≠
        invertForDarkTheme transparentSentinel ⟨true, 1, 1, 0⟩ := by
  constructor
  · decide
  · have hcol : (updateElementE ⟨true, 1, 1, 0⟩
        (transformElementE ⟨true, 1, 1, 0⟩
          (textPElem ⟨transparentSentinel, transparentSentinel, ""⟩
            none))).style.color = transparentSentinel := by decide
    rw [hcol, invert_sentinel_default]
    decide

/-- Claim C2: a node classified as media has `shouldPreserve = true`
and `shouldInvert = false`, and no pipeline operation — the full-pass
step, either mutation-observer step, an inserted subtree whose root it
is, or the settings re-application — ever writes its background
color, for every settings snapshot. -/
theorem c2_media_preservation (s : Settings) (e : Elem) (a : Analysis)
    (h : analyzeElementE e = .ok a) (hm : a.isMedia = true) :
    a.shouldPreserve = true ∧ a.shouldInvert = false ∧
      applyStepE s e = .ok e ∧
      stepNodeE s e = .ok e ∧
      (updateElementE s e).style.backgroundColor =
        e.style.backgroundColor ∧
      (∀ cs, handleInsertedE s (.node e cs) = .ok (.node e cs)) := by
  obtain ⟨hpres, hinv, hmedia⟩ := analyze_flags e a h
  rw [hm] at hpres hinv hmedia
  have hinv2 : a.shouldInvert = false := by rw [hinv]; rfl
  refine ⟨hpres, hinv2, ?_, ?_, ?_, ?_⟩
  · simp [applyStepE, h, hpres]
  · simp [stepNodeE, h, hinv2]
  · cases hc : e.cache with
    | none => simp [updateElementE, hc]
    | some cd =>
      simp only [updateElementE, hc]
      split
      · simp [hmedia]
      · rfl
  · intro cs
    simp [handleInsertedE, h, hinv2]

/-- Witness for C2: an image element with a white background is left
untouched by the full-pass step and by the settings re-application. -/
theorem c2_media_preservation_witness :
    applyStepE ⟨true, 1, 1, 0⟩
        (imgMediaElem ⟨"rgb(0, 0, 0)", "rgb(255, 255, 255)",
          "rgb(0, 0, 0)"⟩) =
      .ok (imgMediaElem ⟨"rgb(0, 0, 0)", "rgb(255, 255, 255)",
        "rgb(0, 0, 0)"⟩) ∧
    (updateElementE ⟨true, 1, 1, 0⟩
        (imgMediaElem ⟨"rgb(0, 0, 0)", "rgb(255, 255, 255)",
          "rgb(0, 0, 0)"⟩)).style.backgroundColor =
      "rgb(255, 255, 255)" := by
  have h := c2_media_preservation ⟨true, 1, 1, 0⟩
    (imgMediaElem ⟨"rgb(0, 0, 0)", "rgb(255, 255, 255)", "rgb(0, 0, 0)"⟩)
    ⟨true, false, false, false, true⟩ (by decide) rfl
  exact ⟨h.2.2.1, h.2.2.2.2.1⟩

/-- Claim C5, corrected: a transparent background is never rewritten by
any application pass — both `transformElement` and
`updateThemeWithNewSettings` skip backgrounds equal to the sentinel —
but the cache capture does occur: the first transform of a node stores
its colors verbatim, the transparent background value included
("recorded but skipped", as §4.4 of the spec itself puts it). -/
theorem c5_transparent_amended :
    (∀ (s : Settings) (e : Elem), e.readable = true →
        e.style.backgroundColor = transparentSentinel → e.cache = none →
        (transformElementE s e).style.backgroundColor =
            transparentSentinel ∧
          (transformElementE s e).cache =
            some ⟨e.style.color, transparentSentinel,
              e.style.borderColor⟩) ∧
      (∀ (s : Settings) (e : Elem) (cd : ColorData), e.cache = some cd →
        cd.originalBg = transparentSentinel →
        (transformElementE s e).style.backgroundColor =
            e.style.backgroundColor ∧
          (updateElementE s e).style.backgroundColor =
            e.style.backgroundColor) := by
  constructor
  · intro s e hr hbg hc
    have h1 := transformElementE_fresh s e hr hc
    rw [h1]
    constructor
    · dsimp only
      rw [hbg, colorOk_sentinel]
      simp
    · dsimp only
      rw [hbg]
  · intro s e cd hc hcd
    constructor
    · cases hre : e.readable with
      | false => simp [transformElementE, hre]
      | true =>
        rw [transformElementE_cached s e cd hre hc]
        dsimp only
        rw [hcd, colorOk_sentinel]
        simp
    · simp only [updateElementE, hc]
      rw [hcd, colorOk_sentinel]
      simp

/-- Witness for C5: a paragraph with a transparent background keeps it
through a fresh transform, and a cached transparent background is
skipped by the settings re-application. -/
theorem c5_transparent_witness :
    (transformElementE ⟨true, 1, 1, 0⟩
        (textPElem ⟨"", transparentSentinel, ""⟩ none)).style.backgroundColor =
      transparentSentinel ∧
    (updateElementE ⟨true, 1, 1, 0⟩
        (textPElem ⟨"", "", ""⟩
          (some ⟨"", transparentSentinel, ""⟩))).style.backgroundColor =
      "" := by
  have h1 := c5_transparent_amended.1 ⟨true, 1, 1, 0⟩
    (textPElem ⟨"", transparentSentinel, ""⟩ none) rfl rfl rfl
  have h2 := c5_transparent_amended.2 ⟨true, 1, 1, 0⟩
    (textPElem ⟨"", "", ""⟩ (some ⟨"", transparentSentinel, ""⟩))
    ⟨"", transparentSentinel, ""⟩ rfl rfl
  exact ⟨h1.1, h2.2⟩

/-- Counterexample to C5 as stated: the first transform of a node with
a transparent background does create a cache entry, recording the
transparent value — the claimed "no cache capture occurs for it" is
false. -/
theorem c5_transparent_counterexample :
    (textPElem ⟨"", transparentSentinel, ""⟩ none).cache = none ∧
      (transformElementE ⟨true, 1, 1, 0⟩
          (textPElem ⟨"", transparentSentinel, ""⟩ none)).cache =
        some ⟨"", transparentSentinel, ""⟩ := by
  constructor
  · rfl
  · decide

theorem stepNodeE_ok_of (s : Settings) (e : Elem)
    (h : ∃ a, analyzeElementE e = .ok a) :
    stepNodeE s e = .ok (stepNodeTotal s e) := by
  rcases h with ⟨a, ha⟩
  simp only [stepNodeE, stepNodeTotal, ha]
  split <;> rfl

theorem applyStepE_ok_of (s : Settings) (e : Elem)
    (h : ∃ a, analyzeElementE e = .ok a) :
    applyStepE s e = .ok (applyStepTotal s e) := by
  rcases h with ⟨a, ha⟩
  simp only [applyStepE, applyStepTotal, ha]
  split
  · rfl
  · split <;> rfl

mutual

theorem mapTreeE_ok (s : Settings) :
    ∀ (t : DOMTree),
      (∀ x ∈ t.elems, ∃ a, analyzeElementE x = .ok a) →
      mapTreeE (stepNodeE s) t = .ok (mapTree (stepNodeTotal s) t)
  | .node e cs, h => by
    have he : stepNodeE s e = .ok (stepNodeTotal s e) := by
      refine stepNodeE_ok_of s e (h e ?_)
      rw [DOMTree.elems]
      exact List.mem_cons_self _ _
    have hcs : mapForestE (stepNodeE s) cs =
        .ok (mapForest (stepNodeTotal s) cs) := by
      refine mapForestE_ok s cs (fun x hx => h x ?_)
      rw [DOMTree.elems]
      exact List.mem_cons_of_mem _ hx
    simp only [mapTreeE, mapTree, he, hcs]

theorem mapForestE_ok (s : Settings) :
    ∀ (cs : List DOMTree),
      (∀ x ∈ elemsForest cs, ∃ a, analyzeElementE x = .ok a) →
      mapForestE (stepNodeE s) cs = .ok (mapForest (stepNodeTotal s) cs)
  | [], _ => rfl
  | t :: ts, h => by
    have h1 : mapTreeE (stepNodeE s) t = .ok (mapTree (stepNodeTotal s) t) := by
      refine mapTreeE_ok s t (fun x hx => h x ?_)
      rw [elemsForest]
      exact List.mem_append_left _ hx
    have h2 : mapForestE (stepNodeE s) ts =
        .ok (mapForest (stepNodeTotal s) ts) := by
      refine mapForestE_ok s ts (fun x hx => h x ?_)
      rw [elemsForest]
      exact List.mem_append_right _ hx
    simp only [mapForestE, mapForest, h1, h2]

end

/-- Claim C7, corrected: when the root of an inserted subtree is
invert-decided, the mutation handler transforms the root and applies
the per-node step to every descendant, leaving media nodes unchanged;
but when the root itself is not invert-decided (a media root), the
`children.forEach` walk is inside the root's `shouldInvert` branch and
the descendants are never visited — so the scenario holds only when
the media node is a descendant, not the inserted root. -/
theorem c7_insertion_amended (s : Settings) (e : Elem) (cs : List DOMTree)
    (a : Analysis) (h : analyzeElementE e = .ok a)
    (hinv : a.shouldInvert = true) (hpres : a.shouldPreserve = false)
    (hall : ∀ x ∈ elemsForest cs, ∃ a2, analyzeElementE x = .ok a2) :
    handleInsertedE s (.node e cs) =
        .ok (mapTree (stepNodeTotal s) (.node e cs)) ∧
      (∀ (x : Elem) (ax : Analysis), analyzeElementE x = .ok ax →
        ax.isMedia = true → stepNodeTotal s x = x) := by
  constructor
  · have hroot : stepNodeTotal s e = transformElementE s e := by
      simp [stepNodeTotal, h, hinv, hpres]
    simp only [handleInsertedE, h, hinv, hpres, mapTree,
      mapForestE_ok s cs hall, hroot]
    simp
  · intro x ax hx hm
    obtain ⟨hp2, hi2, _⟩ := analyze_flags x ax hx
    rw [hm] at hi2
    simp only [stepNodeTotal, hx]
    simp [hi2]

/-- Witness for C7: a subtree whose root is a paragraph and whose only
child is an image is processed into the per-node map of itself. -/
theorem c7_insertion_witness :
    handleInsertedE ⟨true, 1, 1, 0⟩
        (.node (textPElem ⟨"rgb(10,10,10)", "", ""⟩ none)
          [.node (imgMediaElem ⟨"", "", ""⟩) []]) =
      .ok (mapTree (stepNodeTotal ⟨true, 1, 1, 0⟩)
        (.node (textPElem ⟨"rgb(10,10,10)", "", ""⟩ none)
          [.node (imgMediaElem ⟨"", "", ""⟩) []])) := by
  refine (c7_insertion_amended ⟨true, 1, 1, 0⟩ _ _
    ⟨false, true, false, true, false⟩ (by decide) rfl rfl ?_).1
  intro x hx
  simp only [elemsForest, DOMTree.elems, List.append_nil, List.mem_cons,
    List.not_mem_nil, or_false] at hx
  subst hx
  exact ⟨⟨true, false, false, false, true⟩, by decide⟩

/-- Counterexample to C7 as stated: an inserted subtree whose root is a
media node and whose child is an invert-decided text node is left
entirely untouched — the text node is classified invert but never
transformed, although transforming it would change its color. -/
theorem c7_insertion_counterexample :
    handleInsertedE ⟨true, 1, 1, 0⟩
        (.node (imgMediaElem ⟨"", "", ""⟩)
          [.node (textPElem ⟨"rgb(0, 0, 0)", "", ""⟩ none) []]) =
      .ok (.node (imgMediaElem ⟨"", "", ""⟩)
        [.node (textPElem ⟨"rgb(0, 0, 0)", "", ""⟩ none) []]) ∧
    analyzeElementE (textPElem ⟨"rgb(0, 0, 0)", "", ""⟩ none) =
      .ok ⟨false, true, false, true, false⟩ ∧
    (transformElementE ⟨true, 1, 1, 0⟩
        (textPElem ⟨"rgb(0, 0, 0)", "", ""⟩ none)).style.color ≠
      (textPElem ⟨"rgb(0, 0, 0)", "", ""⟩ none).style.color := by
  refine ⟨?_, by decide, ?_⟩
  · simp only [handleInsertedE]
    rw [show analyzeElementE (imgMediaElem ⟨"", "", ""⟩) =
          .ok ⟨true, false, false, false, true⟩ from by decide]
    simp
  · have h1 := transformElementE_fresh ⟨true, 1, 1, 0⟩
      (textPElem ⟨"rgb(0, 0, 0)", "", ""⟩ none) rfl rfl
    rw [h1]
    dsimp only
    rw [if_pos (by decide :
      colorOk (textPElem ⟨"rgb(0, 0, 0)", "", ""⟩ none).style.color = true)]
    rw [show (textPElem ⟨"rgb(0, 0, 0)", "", ""⟩ none).style.color =
          "rgb(0, 0, 0)" from rfl]
    rw [invert_black_default]
    decide

/-- Claim C8, corrected: the per-element `try` of
`updateThemeWithNewSettings` isolates every element, and when every
node's classification succeeds the full pass and a mutation batch
process every node (failures inside `transformElement` are caught
there); but `analyzeElement` runs outside any `try` in both the full
pass and the mutation handler, so a computed-style failure during
classification aborts the remaining nodes of the pass or batch. -/
theorem c8_failure_isolation_amended :
    (∀ (s : Settings) (ns : List Elem),
        (∀ e ∈ ns, ∃ a, analyzeElementE e = .ok a) →
        applyThemePass s ns = ns.map (applyStepTotal s) ∧
          mutationPass s ns = ns.map (stepNodeTotal s)) ∧
      (∀ (s : Settings) (ns : List Elem),
        updatePass s ns = ns.map (updateElementE s)) := by
  constructor
  · intro s ns h
    induction ns with
    | nil => exact ⟨rfl, rfl⟩
    | cons e rest ih =>
      obtain ⟨ih1, ih2⟩ := ih (fun z hz => h z (List.mem_cons_of_mem e hz))
      have he := h e (List.mem_cons_self e rest)
      constructor
      · simp only [applyThemePass, applyStepE_ok_of s e he, ih1,
          List.map_cons]
      · simp only [mutationPass, stepNodeE_ok_of s e he, ih2,
          List.map_cons]
  · intro s ns
    induction ns with
    | nil => rfl
    | cons e rest ih => simp only [updatePass, ih, List.map_cons]

/-- Witness for C8: a fully classifiable pass (an unreadable image —
classification short-circuits on the tag — followed by a paragraph)
processes both nodes, and the re-application pass maps every node. -/
theorem c8_failure_isolation_witness :
    applyThemePass ⟨true, 1, 1, 0⟩
        [unreadableImgElem ⟨"", "", ""⟩,
          textPElem ⟨"rgb(0, 0, 0)", "", ""⟩ none] =
      [unreadableImgElem ⟨"", "", ""⟩,
          textPElem ⟨"rgb(0, 0, 0)", "", ""⟩ none].map
        (applyStepTotal ⟨true, 1, 1, 0⟩) ∧
    updatePass ⟨true, 1, 1, 0⟩ [textPElem ⟨"", "", ""⟩ none] =
      [textPElem ⟨"", "", ""⟩ none].map
        (updateElementE ⟨true, 1, 1, 0⟩) := by
  refine ⟨(c8_failure_isolation_amended.1 ⟨true, 1, 1, 0⟩ _ ?_).1,
    c8_failure_isolation_amended.2 ⟨true, 1, 1, 0⟩ _⟩
  intro x hx
  simp only [List.mem_cons, List.not_mem_nil, or_false] at hx
  rcases hx with rfl | rfl
  · exact ⟨⟨true, false, false, false, true⟩, by decide⟩
  · exact ⟨⟨false, true, false, true, false⟩, by decide⟩

/-- Counterexample to C8 as stated: a detached/unreadable paragraph
fails during classification — outside any `try` — and the full pass
aborts, leaving the following healthy paragraph unprocessed even
though its per-node step would have changed its color. -/
theorem c8_failure_isolation_counterexample :
    applyThemePass ⟨true, 1, 1, 0⟩
        [unreadablePElem ⟨"rgb(0, 0, 0)", "", ""⟩,
          textPElem ⟨"rgb(0, 0, 0)", "", ""⟩ none] =
      [unreadablePElem ⟨"rgb(0, 0, 0)", "", ""⟩,
        textPElem ⟨"rgb(0, 0, 0)", "", ""⟩ none] ∧
    analyzeElementE (unreadablePElem ⟨"rgb(0, 0, 0)", "", ""⟩) =
      .error () ∧
    applyStepE ⟨true, 1, 1, 0⟩ (textPElem ⟨"rgb(0, 0, 0)", "", ""⟩ none) =
      .ok (transformElementE ⟨true, 1, 1, 0⟩
        (textPElem ⟨"rgb(0, 0, 0)", "", ""⟩ none)) ∧
    (transformElementE ⟨true, 1, 1, 0⟩
        (textPElem ⟨"rgb(0, 0, 0)", "", ""⟩ none)).style.color ≠
      (textPElem ⟨"rgb(0, 0, 0)", "", ""⟩ none).style.color := by
  refine ⟨by decide, by decide, ?_, ?_⟩
  · simp only [applyStepE]
    rw [show analyzeElementE (textPElem ⟨"rgb(0, 0, 0)", "", ""⟩ none) =
          .ok ⟨false, true, false, true, false⟩ from by decide]
    simp
  · have h1 := transformElementE_fresh ⟨true, 1, 1, 0⟩
      (textPElem ⟨"rgb(0, 0, 0)", "", ""⟩ none) rfl rfl
    rw [h1]
    dsimp only
    rw [if_pos (by decide :
      colorOk (textPElem ⟨"rgb(0, 0, 0)", "", ""⟩ none).style.color = true)]
    rw [show (textPElem ⟨"rgb(0, 0, 0)", "", ""⟩ none).style.color =
          "rgb(0, 0, 0)" from rfl]
    rw [invert_black_default]
    decide
